import Mathlib

/-
Shallow embedding of the blackjack rules engine (src/cards.py and
src/has_hands.py) together with specification-level definitions used to
state and settle the claims about it.  Python exceptions are modelled by
an explicit error type and fallible operations return Except.  Machine
integers are modelled by Int (Python ints are unbounded).  Where a source
method mutates an object in place, the embedding passes the state
explicitly and returns the updated value; every theorem below concerns
either a completed call or the first fallible step of a call, so this
modelling is faithful to the source on the states the theorems mention.
-/

set_option autoImplicit false

/-- Kinds of Python exception the engine can raise: ValueError carries the
message from the source, TypeError models operations on None, and
IndexError models out-of-range list access. -/
inductive Err where
  | valueError (msg : String)
  | typeError (msg : String)
  | indexError
  deriving DecidableEq

/-- Modelled from the spec: the settings module is not under src/.  Per
sections 1 and 6 of the spec, MINIMUM_BET, MAX_SPLITS and MAX_DECK_PACKS
are configuration constants injected by the caller and treated as fixed, so the
embedding is parameterised over them. -/
structure Settings where
  MINIMUM_BET : Int
  MAX_SPLITS : Nat
  MAX_DECK_PACKS : Nat
  deriving DecidableEq

/-- Embeds Card from src/cards.py: a rank string and a suit string. -/
structure Card where
  rank : String
  suit : String
  deriving DecidableEq

/-- The thirteen rank strings, in source order. -/
def Card.RANKS : List String :=
  ["A", "2", "3", "4", "5", "6", "7", "8", "9", "10", "J", "Q", "K"]

/-- The four suit strings, in source order. -/
def Card.SUITS : List String := ["♠", "♦", "♥", "♣"]

/-- Embeds Card.__init__, which validates rank and suit. -/
def Card.construct (rank suit : String) : Except Err Card :=
  if rank ∉ Card.RANKS then .error (.valueError "Invalid rank passed.")
  else if suit ∉ Card.SUITS then .error (.valueError "Invalid suit passed.")
  else .ok { rank := rank, suit := suit }

/-- Embeds Card.get_rank. -/
def Card.get_rank (c : Card) : String := c.rank

/-- Embeds Card.get_suit. -/
def Card.get_suit (c : Card) : String := c.suit

/-- Embeds Card.get_string. -/
def Card.get_string (c : Card) : String := c.rank ++ c.suit

/-- Embeds Deck from src/cards.py.  The field cards embeds the attribute
written as double-underscore cards in the class body, which Python
name-mangles to _Deck__cards; this is the list read by draw and shuffle.
The field passLeak embeds the distinct attribute _Deck__Deck_cards that
the classmethod pass_cards creates: inside the class body the source
writes deck.__Deck_cards, and name mangling turns that identifier into
_Deck__Deck_cards, a fresh attribute that no other method ever reads. -/
structure Deck where
  cards : List Card
  passLeak : List Card
  deriving DecidableEq

/-- One 52-card pack in construction order: suits outer, ranks inner. -/
def Deck.onePack : List Card :=
  Card.SUITS.flatMap (fun s => Card.RANKS.map (fun r => { rank := r, suit := s }))

/-- The full card sequence of an n-pack deck, packs outermost. -/
def Deck.packCards (n : Nat) : List Card :=
  (List.range n).flatMap (fun _ => Deck.onePack)

/-- Embeds Deck.__init__ for an integer argument: rejects a pack count
that is negative or exceeds MAX_DECK_PACKS, then builds the pack list. -/
def Deck.init (S : Settings) (n : Int) : Except Err Deck :=
  if n < 0 ∨ (S.MAX_DECK_PACKS : Int) < n then
    .error (.valueError "Invalid number of decks passed.")
  else .ok { cards := Deck.packCards n.toNat, passLeak := [] }

/-- Embeds the classmethod Deck.pass_cards.  The source builds deck =
cls(0), whose card list is empty, and then assigns the passed list to
deck.__Deck_cards; name mangling makes that a new attribute
_Deck__Deck_cards, so the card list consulted by draw stays empty. -/
def Deck.pass_cards (cs : List Card) : Except Err Deck :=
  if cs.length = 0 then .error (.valueError "Deck cannot be empty.")
  else .ok { cards := [], passLeak := cs }

/-- Embeds Deck.draw: pops the card at index 0, failing on an empty deck. -/
def Deck.draw (d : Deck) : Except Err (Card × Deck) :=
  match d.cards with
  | [] => .error (.valueError "Taking card from empty deck.")
  | c :: rest => .ok (c, { d with cards := rest })

/-- Iterates Deck.draw k times, collecting the drawn cards in order. -/
def Deck.drawN (d : Deck) (k : Nat) : Except Err (List Card × Deck) :=
  match k with
  | 0 => .ok ([], d)
  | k + 1 => do
    let (c, d1) ← d.draw
    let (cs, d2) ← d1.drawN k
    .ok (c :: cs, d2)

/-- Embeds Hand from src/cards.py: a card list, an optional bet (None
until set_bet is called) and an active flag. -/
structure Hand where
  cards : List Card
  bet : Option Int
  active : Bool
  deriving DecidableEq

/-- Embeds Hand.__init__ with an explicit card list. -/
def Hand.init (cs : List Card) : Hand :=
  { cards := cs, bet := none, active := true }

/-- Embeds Hand.get_cards. -/
def Hand.get_cards (h : Hand) : List Card := h.cards

/-- Embeds Hand.get_bet, which returns None until a bet is set. -/
def Hand.get_bet (h : Hand) : Option Int := h.bet

/-- Embeds Hand.is_active. -/
def Hand.is_active (h : Hand) : Bool := h.active

/-- Embeds Hand.add_card, which appends to the card list. -/
def Hand.add_card (h : Hand) (c : Card) : Hand :=
  { h with cards := h.cards ++ [c] }

/-- Embeds Hand.set_bet, which rejects a bet below MINIMUM_BET. -/
def Hand.set_bet (S : Settings) (h : Hand) (b : Int) : Except Err Hand :=
  if b < S.MINIMUM_BET then
    .error (.valueError "Bet must be greater than minimum bet.")
  else .ok { h with bet := some b }

/-- Embeds Hand.deactivate. -/
def Hand.deactivate (h : Hand) : Hand := { h with active := false }

/-- Embeds the rank rewriting in Hand.get_score: jacks, queens and kings
become the string 10 and every other rank string is kept. -/
def faceTo10 (r : String) : String :=
  if r = "J" ∨ r = "Q" ∨ r = "K" then "10" else r

/-- Embeds the int(rank) conversion applied to the non-ace rank strings
inside Hand.get_score: the number denoted by a string of decimal digits.
On the strings that reach it in the source these are exactly the
numerals 2 to 10.  The characters are folded directly so that the
function evaluates by kernel reduction. -/
def strNum (r : String) : Nat :=
  if r.data ≠ [] ∧ r.data.all (fun c => c.isDigit)
  then r.data.foldl (fun n c => n * 10 + (c.toNat - 48)) 0
  else 0

/-- Embeds the while loop of Hand.get_score: starting from e aces counted
as eleven, decrement that count while the resulting total exceeds 21 and
the count is positive; a is the total number of aces and base the sum of
the non-ace values. -/
def acesLoop (a base : Nat) : Nat → Nat
  | 0 => 0
  | e + 1 =>
    if 21 < 11 * (e + 1) + (a - (e + 1)) + base then acesLoop a base e
    else e + 1

/-- Embeds Hand.get_score from src/cards.py, clause for clause: empty
hand scores 0; face cards are mapped to 10; aces are counted and removed;
the remaining numerals are summed; with no aces that sum is returned;
otherwise the while loop chooses how many aces count as eleven. -/
def Hand.get_score (h : Hand) : Nat :=
  if h.cards.length = 0 then 0
  else
    let ranks := (h.cards.map Card.get_rank).map faceTo10
    let acesQuantity := ranks.count "A"
    let base := ((ranks.filter (fun r => r ≠ "A")).map strNum).sum
    if acesQuantity = 0 then base
    else
      let e := acesLoop acesQuantity base acesQuantity
      11 * e + (acesQuantity - e) + base

/-- Embeds Hand.is_blackjack: score 21 with exactly two cards. -/
def Hand.is_blackjack (h : Hand) : Bool :=
  if h.get_score ≠ 21 then false
  else if h.cards.length ≠ 2 then false
  else true

/-- Embeds Hand.is_bust: score strictly above 21. -/
def Hand.is_bust (h : Hand) : Bool := decide (21 < h.get_score)

/-- Embeds Hand.number_of_cards. -/
def Hand.number_of_cards (h : Hand) : Nat := h.cards.length

/-- Embeds Hand.has_pair: exactly two cards of equal rank. -/
def Hand.has_pair (h : Hand) : Bool :=
  match h.cards with
  | [c1, c2] => c1.get_rank == c2.get_rank
  | _ => false

/-- Embeds Hand.split: rejects a hand without a pair, otherwise pops and
returns the last card. -/
def Hand.splitCard (h : Hand) : Except Err (Card × Hand) :=
  if ¬ h.has_pair then .error (.valueError "Hand cannot be split.")
  else
    match h.cards.getLast? with
    | none => .error .indexError
    | some c => .ok (c, { h with cards := h.cards.dropLast })

/-- Embeds Hand.double_bet.  The source multiplies the stored bet by two;
when no bet has been set the Python value is None and the multiplication
raises a TypeError. -/
def Hand.double_bet (h : Hand) : Except Err Hand :=
  match h.bet with
  | none => .error (.typeError "unsupported operand types for NoneType")
  | some b => .ok { h with bet := some (b * 2) }

/-- Embeds Hand.get_card_by_index: any index outside 0 and 1 is rejected
with the ValueError from the source; for index 0 or 1 the Python list
subscript raises IndexError when the hand is too short. -/
def Hand.get_card_by_index (h : Hand) (i : Int) : Except Err Card :=
  if i ≠ 0 ∧ i ≠ 1 then
    .error (.valueError "get_card_by_index method being used incorrectly.")
  else
    match h.cards[i.toNat]? with
    | none => .error .indexError
    | some c => .ok c

/-- Embeds Hand.get_string. -/
def Hand.get_string (h : Hand) : String :=
  String.intercalate ", " (h.cards.map Card.get_string)

/-- Embeds HasHands.hit from src/has_hands.py, for an explicitly passed
hand: draw a card (the first fallible step, so a failure leaves every
object untouched in the source), append it to the hand, then deactivate
the hand when it is now bust or holds exactly five cards. -/
def HasHands.hit (d : Deck) (h : Hand) : Except Err (Deck × Hand) := do
  let (c, d1) ← d.draw
  let h1 := h.add_card c
  if h1.is_bust ∨ h1.cards.length = 5 then .ok (d1, h1.deactivate)
  else .ok (d1, h1)

/-- Embeds HasHands.stick for an explicitly passed hand. -/
def HasHands.stick (h : Hand) : Hand := h.deactivate

/-- Embeds Player from src/has_hands.py: a name, an integer purse, an
ordered hand list and a split counter. -/
structure Player where
  name : String
  purse : Int
  hands : List Hand
  split_count : Nat
  deriving DecidableEq

/-- Embeds Player.__init__: rejects an empty name and otherwise starts
with no hands and a zero split counter. -/
def Player.construct (name : String) (purse : Int) : Except Err Player :=
  if name = "" then .error (.valueError "Name cannot be empty.")
  else .ok { name := name, purse := purse, hands := [], split_count := 0 }

/-- Embeds Player.get_all_hands. -/
def Player.get_all_hands (p : Player) : List Hand := p.hands

/-- Embeds Player.get_name. -/
def Player.get_name (p : Player) : String := p.name

/-- Embeds Player.get_purse.  The body of the source method consists of
the docstring alone, with no return statement, so the call evaluates to
None regardless of the stored purse amount. -/
def Player.get_purse (_p : Player) : Option Int := none

/-- Embeds Player.get_hand: the first active hand, if any. -/
def Player.get_hand (p : Player) : Option Hand :=
  p.hands.find? (fun h => h.is_active)

/-- Embeds Player.give_hand, which appends to the hand list. -/
def Player.give_hand (p : Player) (h : Hand) : Player :=
  { p with hands := p.hands ++ [h] }

/-- Embeds Player.can_split for an explicitly passed hand: false when the
purse is below the bet or the split counter has reached MAX_SPLITS, and
otherwise the value of has_pair.  When the hand has no bet, the source
comparison of the purse with None raises a TypeError. -/
def Player.can_split (S : Settings) (p : Player) (h : Hand) : Except Err Bool :=
  match h.get_bet with
  | none => .error (.typeError "comparison of int and NoneType")
  | some b =>
    if p.purse < b then .ok false
    else if S.MAX_SPLITS ≤ p.split_count then .ok false
    else .ok h.has_pair

/-- Embeds Player.split for the hand at position i of the hand list (the
source receives the hand by reference; the index identifies it so that
the in-place mutations can be written back).  Following the source line
by line: the split counter is incremented, the purse is debited by the
bet, the last card is popped directly off the card list (the source calls
hand.get_cards().pop(), bypassing the checked Hand.split), a new hand is
built from that card and given the same bet, each hand is hit once, and
the new hand is appended.  No eligibility check occurs anywhere. -/
def Player.split (S : Settings) (p : Player) (d : Deck) (i : Nat) :
    Except Err (Player × Deck) :=
  match p.hands[i]? with
  | none => .error .indexError
  | some hand =>
    let p1 : Player := { p with split_count := p.split_count + 1 }
    match hand.get_bet with
    | none => .error (.typeError "subtraction of int and NoneType")
    | some b =>
      let p2 : Player := { p1 with purse := p1.purse - b }
      match hand.cards.getLast? with
      | none => .error .indexError
      | some second =>
        let hand1 : Hand := { hand with cards := hand.cards.dropLast }
        do
          let newHand ← (Hand.init [second]).set_bet S b
          let (d1, hand2) ← HasHands.hit d hand1
          let (d2, newHand1) ← HasHands.hit d1 newHand
          .ok ({ p2 with hands := (p2.hands.set i hand2) ++ [newHand1] }, d2)

/-- Embeds Player.can_double_down for an explicitly passed hand: the
purse must cover the bet and the hand must hold exactly two cards.  When
the hand has no bet, the source comparison raises a TypeError. -/
def Player.can_double_down (p : Player) (h : Hand) : Except Err Bool :=
  match h.get_bet with
  | none => .error (.typeError "comparison of int and NoneType")
  | some b => .ok (decide (b ≤ p.purse) && decide (h.cards.length = 2))

/-- Embeds Player.double_down for the hand at position i of the hand
list.  Following the source: the purse is debited by the bet, the hand is
hit once, the bet is doubled and the hand deactivated.  No eligibility
check occurs anywhere. -/
def Player.double_down (p : Player) (d : Deck) (i : Nat) :
    Except Err (Player × Deck) :=
  match p.hands[i]? with
  | none => .error .indexError
  | some hand =>
    match hand.get_bet with
    | none => .error (.typeError "subtraction of int and NoneType")
    | some b =>
      let p1 : Player := { p with purse := p.purse - b }
      do
        let (d1, hand1) ← HasHands.hit d hand
        let hand2 ← hand1.double_bet
        .ok ({ p1 with hands := p1.hands.set i hand2.deactivate }, d1)

/-- Embeds Player.reset. -/
def Player.reset (p : Player) : Player :=
  { p with hands := [], split_count := 0 }

/-- Embeds Dealer from src/has_hands.py: at most one hand. -/
structure Dealer where
  hand : Option Hand
  deriving DecidableEq

/-- Embeds Dealer.upcard: get_card_by_index 1 on the dealer hand.  With
no hand, the attribute access on None raises a TypeError-class fault. -/
def Dealer.upcard (dl : Dealer) : Except Err Card :=
  match dl.hand with
  | none => .error (.typeError "NoneType has no attribute get_card_by_index")
  | some h => h.get_card_by_index 1

/-- Embeds Dealer.hole_card: get_card_by_index 0 on the dealer hand. -/
def Dealer.hole_card (dl : Dealer) : Except Err Card :=
  match dl.hand with
  | none => .error (.typeError "NoneType has no attribute get_card_by_index")
  | some h => h.get_card_by_index 0

/-- Embeds Dealer.can_offer_insurance: the upcard has rank A. -/
def Dealer.can_offer_insurance (dl : Dealer) : Except Err Bool := do
  let c ← dl.upcard
  .ok (c.get_rank == "A")

/-- Specification-level card value for a non-ace card, following the
words of the claims: J, Q and K are valued 10 and each numeric rank is
valued as its number. -/
def specCardValue (c : Card) : Nat :=
  if c.get_rank = "J" ∨ c.get_rank = "Q" ∨ c.get_rank = "K" then 10
  else strNum c.get_rank

/-- Specification-level sum of the values of the non-ace cards of a hand. -/
def specNonAceSum (h : Hand) : Nat :=
  ((h.cards.filter (fun c => c.get_rank ≠ "A")).map specCardValue).sum

/-- Specification-level number of aces in a hand. -/
def specAceCount (h : Hand) : Nat :=
  (h.cards.filter (fun c => c.get_rank = "A")).length

/-- Specification-level total contributed by the aces under a choice
list: each true entry values its ace at 11 and each false entry at 1. -/
def specAceValues (ch : List Bool) : Nat :=
  (ch.map (fun b => if b then 11 else 1)).sum

/-- Specification-level hand total under an assignment of 1 or 11 to each
ace, given by a choice list of one Boolean per ace. -/
def specAssignTotal (h : Hand) (ch : List Bool) : Nat :=
  specNonAceSum h + specAceValues ch

/-- Specification-level card at draw position i of a fresh unshuffled
deck, per the claimed order: ranks innermost (period 13), the four suits
next (period 52), packs outermost. -/
def specDeckCard (i : Nat) : Card :=
  { rank := Card.RANKS.getD (i % 13) "", suit := Card.SUITS.getD ((i / 13) % 4) "" }

/-- Total reached when k of the a aces are valued eleven and the rest
one, on top of base: the quantity the while loop of get_score tracks. -/
def aceTotal (a base k : Nat) : Nat := 11 * k + (a - k) + base

instance exceptDecEq {ε α : Type} [DecidableEq ε] [DecidableEq α] :
    DecidableEq (Except ε α) := fun a b =>
  match a, b with
  | .ok x, .ok y =>
    if h : x = y then isTrue (congrArg Except.ok h)
    else isFalse (fun hc => h (Except.ok.inj hc))
  | .error x, .error y =>
    if h : x = y then isTrue (congrArg Except.error h)
    else isFalse (fun hc => h (Except.error.inj hc))
  | .ok _, .error _ => isFalse (fun hc => Except.noConfusion hc)
  | .error _, .ok _ => isFalse (fun hc => Except.noConfusion hc)

theorem exbind_ok {α β : Type} (a : α) (f : α → Except Err β) :
    (do let x ← (.ok a : Except Err α); f x) = f a := rfl

theorem exbind_err {α β : Type} (e : Err) (f : α → Except Err β) :
    (do let x ← (.error e : Except Err α); f x) = .error e := rfl

theorem getLast?_pair {α : Type} (a b : α) : [a, b].getLast? = some b := rfl

theorem dropLast_pair {α : Type} (a b : α) : [a, b].dropLast = [a] := rfl

/-- Evaluation of HasHands.hit on a non-empty deck: the front card moves
from the deck onto the hand, and the hand is deactivated exactly when the
grown hand is bust or holds five cards. -/
theorem hit_eq (d : Deck) (h : Hand) (c : Card) (cs : List Card)
    (hd : d.cards = c :: cs) :
    HasHands.hit d h = .ok ({ d with cards := cs },
      if (h.add_card c).is_bust ∨ (h.add_card c).cards.length = 5
      then (h.add_card c).deactivate else h.add_card c) := by
  simp only [HasHands.hit, Deck.draw, hd, exbind_ok]
  by_cases hc : (h.add_card c).is_bust ∨ (h.add_card c).cards.length = 5
  · simp [hc]
  · simp [hc]

/-- Evaluation of HasHands.hit on an empty deck: the draw fails first,
before any mutation, so the EmptyDeck error propagates. -/
theorem hit_empty (d : Deck) (h : Hand) (hd : d.cards = []) :
    HasHands.hit d h = .error (.valueError "Taking card from empty deck.") := by
  simp [HasHands.hit, Deck.draw, hd, exbind_err]

theorem deactivate_cards (h : Hand) : h.deactivate.cards = h.cards := rfl

theorem deactivate_bet (h : Hand) : h.deactivate.bet = h.bet := rfl

theorem ite_hand_cards (P : Prop) [Decidable P] (h : Hand) :
    (if P then h.deactivate else h).cards = h.cards := by
  by_cases hP : P <;> simp [hP, Hand.deactivate]

theorem ite_hand_bet (P : Prop) [Decidable P] (h : Hand) :
    (if P then h.deactivate else h).bet = h.bet := by
  by_cases hP : P <;> simp [hP, Hand.deactivate]

/-- C9: the claim says Player.get_purse returns the current purse amount;
in the source the method body is only its docstring, so every call
returns None, never the stored integer. -/
theorem C9_get_purse_returns_none (p : Player) : Player.get_purse p = none := rfl

/-- C5: the claim says a deck built by pass_cards draws exactly the
passed cards in order; in the source the classmethod assigns the passed
list to the mangled fresh attribute _Deck__Deck_cards, so the real card
list stays empty and the very first draw fails with EmptyDeck.  The
empty-input rejection of the claim does hold. -/
theorem C5_pass_cards_stages_nothing :
    (Deck.pass_cards [{ rank := "A", suit := "♠" }] =
      .ok { cards := [], passLeak := [{ rank := "A", suit := "♠" }] }) ∧
    (Deck.draw { cards := [], passLeak := [{ rank := "A", suit := "♠" }] } =
      .error (.valueError "Taking card from empty deck.")) ∧
    (Deck.pass_cards ([] : List Card) =
      .error (.valueError "Deck cannot be empty.")) :=
  ⟨rfl, rfl, rfl⟩

/-- C1: the claim says Player.split fails with CannotSplit whenever
can_split is false and then changes nothing; in the source split performs
no eligibility check at all.  At this input the hand is not a pair, so
can_split is false, yet split succeeds, increments the split counter,
debits the purse and rebuilds the hands. -/
theorem C1_split_performs_no_eligibility_check :
    (Player.can_split { MINIMUM_BET := 100, MAX_SPLITS := 3, MAX_DECK_PACKS := 6 }
      { name := "Joe", purse := 500,
        hands := [{ cards := [{ rank := "2", suit := "♠" }, { rank := "3", suit := "♠" }],
                    bet := some 100, active := true }], split_count := 0 }
      { cards := [{ rank := "2", suit := "♠" }, { rank := "3", suit := "♠" }],
        bet := some 100, active := true } = .ok false) ∧
    (Player.split { MINIMUM_BET := 100, MAX_SPLITS := 3, MAX_DECK_PACKS := 6 }
      { name := "Joe", purse := 500,
        hands := [{ cards := [{ rank := "2", suit := "♠" }, { rank := "3", suit := "♠" }],
                    bet := some 100, active := true }], split_count := 0 }
      { cards := [{ rank := "5", suit := "♥" }, { rank := "6", suit := "♥" }], passLeak := [] }
      0 =
      .ok ({ name := "Joe", purse := 400,
             hands := [{ cards := [{ rank := "2", suit := "♠" }, { rank := "5", suit := "♥" }],
                         bet := some 100, active := true },
                       { cards := [{ rank := "3", suit := "♠" }, { rank := "6", suit := "♥" }],
                         bet := some 100, active := true }], split_count := 1 },
           { cards := [], passLeak := [] })) :=
  ⟨rfl, by decide⟩

/-- C2: the claim says engine operations never leave a non-negative purse
negative because such operations are rejected before mutation; in the
source Player.double_down debits the purse unconditionally, so a player
with purse 0 and a bet of 100 ends at purse -100. -/
theorem C2_double_down_drives_purse_negative :
    (Player.double_down
      { name := "Joe", purse := 0,
        hands := [{ cards := [{ rank := "A", suit := "♠" }, { rank := "K", suit := "♠" }],
                    bet := some 100, active := true }], split_count := 0 }
      { cards := [{ rank := "2", suit := "♦" }], passLeak := [] } 0 =
      .ok ({ name := "Joe", purse := -100,
             hands := [{ cards := [{ rank := "A", suit := "♠" }, { rank := "K", suit := "♠" },
                                   { rank := "2", suit := "♦" }],
                         bet := some 200, active := false }], split_count := 0 },
           { cards := [], passLeak := [] })) ∧
    (-100 : Int) < 0 :=
  ⟨by decide, by norm_num⟩

/-- C3: the claim says Player.double_down fails with CannotDoubleDown
whenever the hand does not hold exactly two cards or the purse is short,
leaving everything unchanged; in the source double_down performs no
eligibility check.  At this input the hand holds three cards, so
can_double_down is false, yet double_down succeeds, debits the purse,
draws a card and doubles the bet. -/
theorem C3_double_down_performs_no_eligibility_check :
    (Player.can_double_down
      { name := "Joe", purse := 500,
        hands := [{ cards := [{ rank := "2", suit := "♠" }, { rank := "3", suit := "♠" },
                              { rank := "4", suit := "♠" }],
                    bet := some 100, active := true }], split_count := 0 }
      { cards := [{ rank := "2", suit := "♠" }, { rank := "3", suit := "♠" },
                  { rank := "4", suit := "♠" }],
        bet := some 100, active := true } = .ok false) ∧
    (Player.double_down
      { name := "Joe", purse := 500,
        hands := [{ cards := [{ rank := "2", suit := "♠" }, { rank := "3", suit := "♠" },
                              { rank := "4", suit := "♠" }],
                    bet := some 100, active := true }], split_count := 0 }
      { cards := [{ rank := "5", suit := "♦" }], passLeak := [] } 0 =
      .ok ({ name := "Joe", purse := 400,
             hands := [{ cards := [{ rank := "2", suit := "♠" }, { rank := "3", suit := "♠" },
                                   { rank := "4", suit := "♠" }, { rank := "5", suit := "♦" }],
                         bet := some 200, active := false }], split_count := 0 },
           { cards := [], passLeak := [] })) :=
  ⟨rfl, by decide⟩

/-- C8: hit on a non-empty deck moves the front card of the deck onto the
hand, and afterwards the hand is inactive exactly when it is bust or
holds exactly five cards (so a five-card hand is deactivated even with
score at most 21); hit on an empty deck fails with EmptyDeck, and since
the draw is the first step of the source method, nothing has been
mutated at that point. -/
theorem C8_hit_front_card_and_auto_deactivation (d : Deck) (h : Hand)
    (hact : h.is_active = true) :
    (∀ c cs, d.cards = c :: cs →
      ∃ h1, HasHands.hit d h = .ok ({ d with cards := cs }, h1) ∧
        h1.cards = h.cards ++ [c] ∧
        (h1.is_active = false ↔ (h1.is_bust = true ∨ h1.cards.length = 5))) ∧
    (d.cards = [] →
      HasHands.hit d h = .error (.valueError "Taking card from empty deck.")) := by
  constructor
  · intro c cs hd
    refine ⟨_, hit_eq d h c cs hd, ?_, ?_⟩
    · rw [ite_hand_cards]
      rfl
    · by_cases hc : (h.add_card c).is_bust ∨ (h.add_card c).cards.length = 5
      · rw [if_pos hc]
        exact iff_of_true rfl hc
      · rw [if_neg hc]
        have h1a : (h.add_card c).is_active = true := hact
        rw [h1a]
        exact iff_of_false (by simp) hc
  · intro hd
    exact hit_empty d h hd

/-- Witness for C8 at a concrete deck and hand: hitting a one-card hand
with a five of spades on top of the deck. -/
theorem C8_hit_witness :
    ∃ h1, HasHands.hit { cards := [{ rank := "5", suit := "♠" }], passLeak := [] }
        { cards := [{ rank := "2", suit := "♠" }], bet := some 100, active := true } =
      .ok ({ cards := [], passLeak := [] }, h1) ∧
      h1.cards = [{ rank := "2", suit := "♠" }, { rank := "5", suit := "♠" }] ∧
      (h1.is_active = false ↔ (h1.is_bust = true ∨ h1.cards.length = 5)) :=
  (C8_hit_front_card_and_auto_deactivation
    { cards := [{ rank := "5", suit := "♠" }], passLeak := [] }
    { cards := [{ rank := "2", suit := "♠" }], bet := some 100, active := true }
    rfl).1 _ _ rfl

/-- C7: when the hand at position i is a two-card pair with bet b at
least the minimum, the purse covers b, the split counter is below the
maximum and the deck holds at least two cards, split succeeds; both the
hand at position i and the newly appended hand then hold exactly two
cards and carry bet b, the purse has dropped by exactly b and the split
counter has grown by exactly one. -/
theorem C7_split_success_effects (S : Settings) (p : Player) (d : Deck) (i : Nat)
    (hand : Hand) (hi : p.hands[i]? = some hand)
    (c1 c2 : Card) (hcards : hand.cards = [c1, c2])
    (hpair : c1.get_rank = c2.get_rank)
    (b : Int) (hbet : hand.bet = some b) (hminb : S.MINIMUM_BET ≤ b)
    (hpurse : b ≤ p.purse) (hsplits : p.split_count < S.MAX_SPLITS)
    (e1 e2 : Card) (rest : List Card) (hdeck : d.cards = e1 :: e2 :: rest) :
    ∃ q d2, Player.split S p d i = .ok (q, d2) ∧
      q.hands.length = p.hands.length + 1 ∧
      (∃ h1, q.hands[i]? = some h1 ∧ h1.cards.length = 2 ∧ h1.get_bet = some b) ∧
      (∃ h2, q.hands.getLast? = some h2 ∧ h2.cards.length = 2 ∧ h2.get_bet = some b) ∧
      q.purse = p.purse - b ∧
      q.split_count = p.split_count + 1 := by
  have hIlt : i < p.hands.length := by
    rcases List.getElem?_eq_some.mp hi with ⟨hl, _⟩
    exact hl
  have hsb : Hand.set_bet S (Hand.init [c2]) b =
      .ok { cards := [c2], bet := some b, active := true } := by
    unfold Hand.set_bet Hand.init
    rw [if_neg (not_lt.mpr hminb)]
  simp only [Player.split, hi, Hand.get_bet, hbet, hcards, getLast?_pair,
    dropLast_pair, hsb, exbind_ok]
  rw [hit_eq d _ e1 (e2 :: rest) hdeck, exbind_ok, hit_eq _ _ e2 rest rfl, exbind_ok]
  apply Exists.intro
  apply Exists.intro
  refine ⟨rfl, ?_, ?_, ?_, ?_, ?_⟩
  rotate_left
  · exact ⟨_,
      by rw [List.getElem?_append_left (by simpa [List.length_set] using hIlt)]
         exact List.getElem?_set_self (by simpa using hIlt),
      by rw [ite_hand_cards]; simp [Hand.add_card],
      by simp only [Hand.get_bet]; rw [ite_hand_bet]; simp [Hand.add_card]⟩
  · exact ⟨_, List.getLast?_concat _,
      by rw [ite_hand_cards]; simp [Hand.add_card],
      by simp only [Hand.get_bet]; rw [ite_hand_bet]; simp [Hand.add_card]⟩
  · rfl
  · rfl
  · simp [List.length_set]

/-- Witness for C7: splitting a pair of eights with bet 100 from a purse
of 500 with two cards left in the deck. -/
theorem C7_split_witness :
    ∃ q d2, Player.split { MINIMUM_BET := 100, MAX_SPLITS := 3, MAX_DECK_PACKS := 6 }
      { name := "Joe", purse := 500,
        hands := [{ cards := [{ rank := "8", suit := "♠" }, { rank := "8", suit := "♦" }],
                    bet := some 100, active := true }], split_count := 0 }
      { cards := [{ rank := "5", suit := "♥" }, { rank := "6", suit := "♥" }], passLeak := [] }
      0 = .ok (q, d2) ∧
      q.hands.length = 1 + 1 ∧
      (∃ h1, q.hands[0]? = some h1 ∧ h1.cards.length = 2 ∧ h1.get_bet = some 100) ∧
      (∃ h2, q.hands.getLast? = some h2 ∧ h2.cards.length = 2 ∧ h2.get_bet = some 100) ∧
      q.purse = 500 - 100 ∧
      q.split_count = 0 + 1 :=
  C7_split_success_effects { MINIMUM_BET := 100, MAX_SPLITS := 3, MAX_DECK_PACKS := 6 }
    { name := "Joe", purse := 500,
      hands := [{ cards := [{ rank := "8", suit := "♠" }, { rank := "8", suit := "♦" }],
                  bet := some 100, active := true }], split_count := 0 }
    { cards := [{ rank := "5", suit := "♥" }, { rank := "6", suit := "♥" }], passLeak := [] }
    0 _ rfl _ _ rfl rfl 100 rfl (by norm_num) (by norm_num) (by norm_num) _ _ _ rfl

/-- C10 counterexample: the claim says Dealer.hole_card fails on a dealer
hand holding fewer than 2 cards, but on a one-card hand the source
returns the card at index 0, so hole_card succeeds. -/
theorem C10_hole_card_succeeds_on_one_card_hand :
    Dealer.hole_card
      { hand := some { cards := [{ rank := "A", suit := "♠" }], bet := none, active := true } } =
      .ok { rank := "A", suit := "♠" } := rfl

/-- C10 amended: get_card_by_index fails with the InvalidIndex error
exactly when the index is outside 0 and 1; for index 0 or 1 on a hand
that is too short it fails with the out-of-range indexing error instead;
hence upcard fails on a dealer hand with fewer than 2 cards, while
hole_card fails exactly on an empty dealer hand and succeeds as soon as
one card is held. -/
theorem C10_card_by_index_and_dealer_access :
    (∀ (h : Hand) (i : Int),
      (h.get_card_by_index i =
          .error (.valueError "get_card_by_index method being used incorrectly.") ↔
        (i ≠ 0 ∧ i ≠ 1))) ∧
    (∀ (h : Hand) (i : Int), (i = 0 ∨ i = 1) → h.cards.length ≤ i.toNat →
      h.get_card_by_index i = .error .indexError) ∧
    (∀ (dl : Dealer) (hh : Hand), dl.hand = some hh →
      (hh.cards.length < 2 → Dealer.upcard dl = .error .indexError) ∧
      (hh.cards.length = 0 → Dealer.hole_card dl = .error .indexError) ∧
      (1 ≤ hh.cards.length → ∃ c, Dealer.hole_card dl = .ok c)) := by
  have hshort : ∀ (h : Hand) (i : Int), (i = 0 ∨ i = 1) → h.cards.length ≤ i.toNat →
      h.get_card_by_index i = .error .indexError := by
    intro h i hi hlen
    have hno : ¬ (i ≠ 0 ∧ i ≠ 1) := by
      rcases hi with hi | hi <;> simp [hi]
    rw [Hand.get_card_by_index, if_neg hno, List.getElem?_eq_none hlen]
  refine ⟨?_, hshort, ?_⟩
  · intro h i
    by_cases hi : i ≠ 0 ∧ i ≠ 1
    · rw [Hand.get_card_by_index, if_pos hi]
      simp [hi]
    · rw [Hand.get_card_by_index, if_neg hi]
      refine iff_of_false ?_ hi
      cases hc : h.cards[i.toNat]? <;> simp
  · intro dl hh hdl
    refine ⟨?_, ?_, ?_⟩
    · intro hlt
      rw [Dealer.upcard, hdl]
      exact hshort hh 1 (Or.inr rfl) (by omega)
    · intro h0
      rw [Dealer.hole_card, hdl]
      exact hshort hh 0 (Or.inl rfl) (by omega)
    · intro h1
      rw [Dealer.hole_card, hdl]
      rcases hcs : hh.cards with _ | ⟨c, cs⟩
      · rw [hcs] at h1
        simp at h1
      · exact ⟨c, by simp [Hand.get_card_by_index, hcs]⟩

/-- Witness for C10 amended, at concrete inputs: index 5 on an empty hand
is InvalidIndex, index 0 on an empty hand is the indexing error, and the
dealer accessors behave accordingly on a one-card hand. -/
theorem C10_card_by_index_witness :
    (Hand.get_card_by_index { cards := [], bet := none, active := true } 5 =
      .error (.valueError "get_card_by_index method being used incorrectly.")) ∧
    (Hand.get_card_by_index { cards := [], bet := none, active := true } 0 =
      .error .indexError) ∧
    (Dealer.upcard
      { hand := some { cards := [{ rank := "A", suit := "♠" }], bet := none, active := true } } =
      .error .indexError) ∧
    (∃ c, Dealer.hole_card
      { hand := some { cards := [{ rank := "A", suit := "♠" }], bet := none, active := true } } =
      .ok c) :=
  ⟨(C10_card_by_index_and_dealer_access.1 _ 5).mpr (by decide),
   C10_card_by_index_and_dealer_access.2.1 _ 0 (Or.inl rfl) (by decide),
   (C10_card_by_index_and_dealer_access.2.2 _ _ rfl).1 (by decide),
   (C10_card_by_index_and_dealer_access.2.2 _ _ rfl).2.2 (by decide)⟩

theorem acesLoop_le (a base : Nat) : ∀ e, acesLoop a base e ≤ e := by
  intro e
  induction e with
  | zero => simp [acesLoop]
  | succ e ih =>
    rw [acesLoop]
    by_cases hc : 21 < 11 * (e + 1) + (a - (e + 1)) + base
    · rw [if_pos hc]
      omega
    · rw [if_neg hc]

theorem acesLoop_le_or (a base : Nat) :
    ∀ e, aceTotal a base (acesLoop a base e) ≤ 21 ∨ acesLoop a base e = 0 := by
  intro e
  induction e with
  | zero => right; rfl
  | succ e ih =>
    rw [acesLoop]
    by_cases hc : 21 < 11 * (e + 1) + (a - (e + 1)) + base
    · rw [if_pos hc]
      exact ih
    · rw [if_neg hc]
      left
      unfold aceTotal
      omega

theorem acesLoop_max (a base : Nat) :
    ∀ e k, k ≤ e → aceTotal a base k ≤ 21 → k ≤ acesLoop a base e := by
  intro e
  induction e with
  | zero => intro k hk _; omega
  | succ e ih =>
    intro k hk hfeas
    rw [acesLoop]
    by_cases hc : 21 < 11 * (e + 1) + (a - (e + 1)) + base
    · rw [if_pos hc]
      refine ih k ?_ hfeas
      rcases Nat.lt_or_ge k (e + 1) with hlt | hge
      · omega
      · exfalso
        have hke : k = e + 1 := by omega
        rw [hke] at hfeas
        unfold aceTotal at hfeas
        omega
    · rw [if_neg hc]
      exact hk

theorem specAceValues_eq (ch : List Bool) :
    specAceValues ch = ch.length + 10 * ch.count true := by
  induction ch with
  | nil => rfl
  | cons b t ih =>
    cases b <;>
      simp [specAceValues, List.count_cons, List.sum_cons] at ih ⊢ <;>
      omega

theorem exists_choice_with_count (n k : Nat) (hk : k ≤ n) :
    ∃ ch : List Bool, ch.length = n ∧ ch.count true = k := by
  refine ⟨List.replicate k true ++ List.replicate (n - k) false, ?_, ?_⟩
  · simp
    omega
  · simp [List.count_append, List.count_replicate]

theorem faceTo10_eq_A (r : String) : (faceTo10 r = "A") ↔ r = "A" := by
  unfold faceTo10
  by_cases hr : r = "J" ∨ r = "Q" ∨ r = "K"
  · rw [if_pos hr]
    rcases hr with h | h | h <;> subst h <;> decide
  · rw [if_neg hr]

theorem strNum_faceTo10_eq_spec (c : Card) :
    strNum (faceTo10 c.get_rank) = specCardValue c := by
  unfold specCardValue faceTo10
  by_cases hr : c.get_rank = "J" ∨ c.get_rank = "Q" ∨ c.get_rank = "K"
  · rw [if_pos hr, if_pos hr]
    decide
  · rw [if_neg hr, if_neg hr]

theorem code_count_aces (cs : List Card) :
    ((cs.map Card.get_rank).map faceTo10).count "A" =
      (cs.filter (fun c => c.get_rank = "A")).length := by
  induction cs with
  | nil => rfl
  | cons c t ih =>
    by_cases hc : c.get_rank = "A"
    · simp only [List.map_cons, List.count_cons, List.filter_cons, ih]
      rw [if_pos (by simpa [faceTo10_eq_A] using hc)]
      simp [faceTo10_eq_A, hc]
    · simp only [List.map_cons, List.count_cons, List.filter_cons, ih]
      rw [if_neg (by simpa [faceTo10_eq_A] using hc)]
      simp [faceTo10_eq_A, hc]

theorem code_base_sum (cs : List Card) :
    ((((cs.map Card.get_rank).map faceTo10).filter (fun r => r ≠ "A")).map strNum).sum =
      ((cs.filter (fun c => c.get_rank ≠ "A")).map specCardValue).sum := by
  induction cs with
  | nil => rfl
  | cons c t ih =>
    by_cases hc : c.get_rank = "A"
    · simp only [List.map_cons, List.filter_cons]
      rw [if_neg (by simp [faceTo10_eq_A, hc]), if_neg (by simp [hc])]
      exact ih
    · simp only [List.map_cons, List.filter_cons]
      rw [if_pos (by simp [faceTo10_eq_A, hc]), if_pos (by simp [hc])]
      simp only [List.map_cons, List.sum_cons, ih, strNum_faceTo10_eq_spec]

theorem get_score_eq (h : Hand) :
    h.get_score =
      (if specAceCount h = 0 then specNonAceSum h
       else aceTotal (specAceCount h) (specNonAceSum h)
         (acesLoop (specAceCount h) (specNonAceSum h) (specAceCount h))) := by
  unfold Hand.get_score
  by_cases h0 : h.cards.length = 0
  · have hnil : h.cards = [] := List.length_eq_zero.mp h0
    simp [h0, hnil, specAceCount, specNonAceSum]
  · rw [if_neg h0]
    simp only [code_count_aces, code_base_sum]
    rfl

/-- C4: for every hand of validly constructed cards, get_score is the
maximum total not exceeding 21 over all assignments of 1 or 11 to each
ace (faces valued 10, numerals at face value); when no assignment stays
at or below 21 it is the minimum possible total, with every ace valued 1;
and the empty hand scores 0. -/
theorem C4_get_score_best_total (h : Hand)
    (hv : ∀ c ∈ h.cards, c.get_rank ∈ Card.RANKS) :
    ((∃ ch : List Bool, ch.length = specAceCount h ∧ specAssignTotal h ch ≤ 21) →
      ∃ ch : List Bool, ch.length = specAceCount h ∧
        h.get_score = specAssignTotal h ch ∧ h.get_score ≤ 21 ∧
        ∀ ch2 : List Bool, ch2.length = specAceCount h →
          specAssignTotal h ch2 ≤ 21 → specAssignTotal h ch2 ≤ h.get_score) ∧
    ((¬ ∃ ch : List Bool, ch.length = specAceCount h ∧ specAssignTotal h ch ≤ 21) →
      h.get_score = specAssignTotal h (List.replicate (specAceCount h) false)) ∧
    (h.cards = [] → h.get_score = 0) := by
  have hthird : h.cards = [] → h.get_score = 0 := by
    intro hnil
    simp [Hand.get_score, hnil]
  have hgs := get_score_eq h
  by_cases ha : specAceCount h = 0
  · rw [ha, if_pos rfl] at hgs
    refine ⟨?_, ?_, hthird⟩
    · rintro ⟨ch, hlen, _⟩
      have hch : ch = [] := List.length_eq_zero.mp (by rw [hlen, ha])
      subst hch
      refine ⟨[], by simp [ha], ?_, ?_, ?_⟩
      · rw [hgs]
        simp [specAssignTotal, specAceValues]
      · rw [hgs]
        simpa [specAssignTotal, specAceValues] using ‹specAssignTotal h [] ≤ 21›
      · intro ch2 hlen2 hle2
        have hch2 : ch2 = [] := List.length_eq_zero.mp (by rw [hlen2, ha])
        subst hch2
        rw [hgs]
        simpa [specAssignTotal, specAceValues] using hle2
    · intro _
      rw [ha, hgs]
      simp [specAssignTotal, specAceValues]
  · rw [if_neg ha] at hgs
    set a := specAceCount h with hadef
    set S := specNonAceSum h with hSdef
    set e := acesLoop a S a with hedef
    have he_le : e ≤ a := acesLoop_le a S a
    have hscore : h.get_score = S + a + 10 * e := by
      rw [hgs]
      unfold aceTotal
      omega
    have htot : ∀ ch : List Bool,
        specAssignTotal h ch = S + ch.length + 10 * ch.count true := by
      intro ch
      unfold specAssignTotal
      rw [specAceValues_eq]
      omega
    refine ⟨?_, ?_, hthird⟩
    · rintro ⟨ch, hlen, hle⟩
      have hSa : S + a ≤ 21 := by
        rw [htot ch, hlen] at hle
        omega
      have hfeasE : aceTotal a S e ≤ 21 := by
        rcases acesLoop_le_or a S a with hx | hx
        · exact hx
        · rw [← hedef] at hx
          rw [hx]
          unfold aceTotal
          omega
      obtain ⟨chE, hElen, hEcount⟩ := exists_choice_with_count a e he_le
      refine ⟨chE, hElen, ?_, ?_, ?_⟩
      · rw [htot chE, hElen, hEcount, hscore]
      · rw [hscore]
        unfold aceTotal at hfeasE
        omega
      · intro ch2 hlen2 hle2
        have hc2 : ch2.count true ≤ a := by
          rw [← hlen2]
          exact List.count_le_length _ _
        have hfeas2 : aceTotal a S (ch2.count true) ≤ 21 := by
          rw [htot ch2, hlen2] at hle2
          unfold aceTotal
          omega
        have hmax := acesLoop_max a S a (ch2.count true) hc2 hfeas2
        rw [← hedef] at hmax
        rw [htot ch2, hlen2, hscore]
        omega
    · intro hno
      have hval : specAssignTotal h (List.replicate a false) = S + a := by
        rw [htot]
        simp [List.count_replicate]
      rw [hval]
      rcases acesLoop_le_or a S a with hx | hx
      · exfalso
        obtain ⟨chE, hElen, hEcount⟩ :=
          exists_choice_with_count a (acesLoop a S a) (acesLoop_le a S a)
        refine hno ⟨chE, hElen, ?_⟩
        rw [htot chE, hElen, hEcount]
        unfold aceTotal at hx
        omega
      · rw [← hedef] at hx
        rw [hscore, hx]
        omega

/-- Witness for C4 at the concrete hand ace of spades with king of
spades, whose cards are all validly constructed. -/
theorem C4_get_score_witness :
    ((∃ ch : List Bool, ch.length = specAceCount
        { cards := [{ rank := "A", suit := "♠" }, { rank := "K", suit := "♠" }],
          bet := none, active := true } ∧
        specAssignTotal
          { cards := [{ rank := "A", suit := "♠" }, { rank := "K", suit := "♠" }],
            bet := none, active := true } ch ≤ 21) →
      ∃ ch : List Bool, ch.length = specAceCount
          { cards := [{ rank := "A", suit := "♠" }, { rank := "K", suit := "♠" }],
            bet := none, active := true } ∧
        Hand.get_score
          { cards := [{ rank := "A", suit := "♠" }, { rank := "K", suit := "♠" }],
            bet := none, active := true } = specAssignTotal
          { cards := [{ rank := "A", suit := "♠" }, { rank := "K", suit := "♠" }],
            bet := none, active := true } ch ∧
        Hand.get_score
          { cards := [{ rank := "A", suit := "♠" }, { rank := "K", suit := "♠" }],
            bet := none, active := true } ≤ 21 ∧
        ∀ ch2 : List Bool, ch2.length = specAceCount
            { cards := [{ rank := "A", suit := "♠" }, { rank := "K", suit := "♠" }],
              bet := none, active := true } →
          specAssignTotal
            { cards := [{ rank := "A", suit := "♠" }, { rank := "K", suit := "♠" }],
              bet := none, active := true } ch2 ≤ 21 →
          specAssignTotal
            { cards := [{ rank := "A", suit := "♠" }, { rank := "K", suit := "♠" }],
              bet := none, active := true } ch2 ≤ Hand.get_score
            { cards := [{ rank := "A", suit := "♠" }, { rank := "K", suit := "♠" }],
              bet := none, active := true }) ∧
    ((¬ ∃ ch : List Bool, ch.length = specAceCount
        { cards := [{ rank := "A", suit := "♠" }, { rank := "K", suit := "♠" }],
          bet := none, active := true } ∧
        specAssignTotal
          { cards := [{ rank := "A", suit := "♠" }, { rank := "K", suit := "♠" }],
            bet := none, active := true } ch ≤ 21) →
      Hand.get_score
        { cards := [{ rank := "A", suit := "♠" }, { rank := "K", suit := "♠" }],
          bet := none, active := true } = specAssignTotal
        { cards := [{ rank := "A", suit := "♠" }, { rank := "K", suit := "♠" }],
          bet := none, active := true }
        (List.replicate (specAceCount
          { cards := [{ rank := "A", suit := "♠" }, { rank := "K", suit := "♠" }],
            bet := none, active := true }) false)) ∧
    (Hand.cards
      { cards := [{ rank := "A", suit := "♠" }, { rank := "K", suit := "♠" }],
        bet := none, active := true } = [] →
      Hand.get_score
        { cards := [{ rank := "A", suit := "♠" }, { rank := "K", suit := "♠" }],
          bet := none, active := true } = 0) :=
  C4_get_score_best_total
    { cards := [{ rank := "A", suit := "♠" }, { rank := "K", suit := "♠" }],
      bet := none, active := true } (by decide)

theorem onePack_eq : Deck.onePack = (List.range 52).map specDeckCard := by decide

theorem specDeckCard_period (n j : Nat) :
    specDeckCard (52 * n + j) = specDeckCard j := by
  unfold specDeckCard
  have h13 : (52 * n + j) % 13 = j % 13 := by omega
  have h4 : ((52 * n + j) / 13) % 4 = (j / 13) % 4 := by omega
  rw [h13, h4]

theorem packCards_eq (n : Nat) :
    Deck.packCards n = (List.range (52 * n)).map specDeckCard := by
  induction n with
  | zero => rfl
  | succ n ih =>
    have hL : Deck.packCards (n + 1) = Deck.packCards n ++ Deck.onePack := by
      unfold Deck.packCards
      rw [List.range_succ, List.flatMap_append]
      simp
    have hR : List.range (52 * (n + 1)) =
        List.range (52 * n) ++ (List.range 52).map (fun j => 52 * n + j) := by
      have : 52 * (n + 1) = 52 * n + 52 := by ring
      rw [this, List.range_add]
    rw [hL, hR, List.map_append, ih, List.map_map]
    congr 1
    rw [onePack_eq]
    apply List.map_congr_left
    intro j _
    exact (specDeckCard_period n j).symm

theorem drawN_all (cs leak : List Card) :
    Deck.drawN { cards := cs, passLeak := leak } cs.length =
      .ok (cs, { cards := [], passLeak := leak }) := by
  induction cs with
  | nil => rfl
  | cons c t ih =>
    show Deck.drawN { cards := c :: t, passLeak := leak } (t.length + 1) = _
    rw [Deck.drawN]
    simp only [Deck.draw, exbind_ok, ih]

/-- C6: for every pack count n up to MAX_DECK_PACKS, construction
succeeds, exactly 52 times n draws succeed, the i-th drawn card is the
rank at position i mod 13 with the suit at position i div 13 mod 4 (ranks
innermost, suits next, packs outermost), and the following draw fails
with EmptyDeck. -/
theorem C6_deck_draw_order (S : Settings) (n : Nat) (hn : n ≤ S.MAX_DECK_PACKS) :
    ∃ L : List Card,
      Deck.init S (n : Int) = .ok { cards := Deck.packCards n, passLeak := [] } ∧
      Deck.drawN { cards := Deck.packCards n, passLeak := [] } (52 * n) =
        .ok (L, { cards := [], passLeak := [] }) ∧
      L.length = 52 * n ∧
      (∀ i, i < 52 * n → L[i]? = some (specDeckCard i)) ∧
      Deck.draw { cards := [], passLeak := [] } =
        .error (.valueError "Taking card from empty deck.") := by
  have hinit : Deck.init S (n : Int) =
      .ok { cards := Deck.packCards n, passLeak := [] } := by
    unfold Deck.init
    rw [if_neg (by omega)]
    simp
  have hlen : (Deck.packCards n).length = 52 * n := by
    rw [packCards_eq]
    simp
  refine ⟨Deck.packCards n, hinit, ?_, hlen, ?_, rfl⟩
  · rw [← hlen]
    exact drawN_all (Deck.packCards n) []
  · intro i hi
    rw [packCards_eq, List.getElem?_map, List.getElem?_range hi]
    rfl

/-- Witness for C6 with one pack under a maximum of six packs. -/
theorem C6_deck_draw_witness :
    ∃ L : List Card,
      Deck.init { MINIMUM_BET := 100, MAX_SPLITS := 3, MAX_DECK_PACKS := 6 } ((1 : Nat) : Int) =
        .ok { cards := Deck.packCards 1, passLeak := [] } ∧
      Deck.drawN { cards := Deck.packCards 1, passLeak := [] } (52 * 1) =
        .ok (L, { cards := [], passLeak := [] }) ∧
      L.length = 52 * 1 ∧
      (∀ i, i < 52 * 1 → L[i]? = some (specDeckCard i)) ∧
      Deck.draw { cards := [], passLeak := [] } =
        .error (.valueError "Taking card from empty deck.") :=
  C6_deck_draw_order { MINIMUM_BET := 100, MAX_SPLITS := 3, MAX_DECK_PACKS := 6 } 1
    (by norm_num)
